import Mathlib

/-!
Verification development for the `scrapy-bigquery` pipeline
(`bigquerypipeline/pipelines.py`, class `BigQueryPipeline`).

The embedding below translates the pipeline methods into pure Lean
functions.  Python dicts become association lists (`List (String × Value)`;
keys are unique in any dict produced by Python, and the list operations
below implement the Python dict operations on such lists).  The BigQuery
client is an oracle (`Store`) supplying the results of the network calls,
and the calls themselves are recorded in an emitted trace of `StoreOp`s.
Exceptions raised by `create_table` (the only store call whose exceptions
the pipeline code does not catch) are modelled with `Except`.  Log lines
written through `spider.logger.error` are collected in a `List String`.
The `__init__`/`from_crawler` constructor code (credential decoding and
dataset creation) is not needed by any claim and is not modelled.

Scrapy semantics used: `spider.settings[key]` (Scrapy `BaseSettings.__getitem__`)
returns `None` for a missing key rather than raising, and
`spider.settings.get(key, default)` returns `default` for a missing key.
-/

namespace ScrapyBigQuery

/-- A Python value as it appears in a scraped item: string, int, bool,
`datetime.date`, `datetime.datetime` (a subclass of `date` in Python),
dict, list, or `None`. -/
inductive Value where
  | str (s : String)
  | int (n : Int)
  | bool (b : Bool)
  | date (y m d : Nat)
  | datetime (y m d hh mi ss : Nat)
  | dict (fields : List (String × Value))
  | list (elems : List Value)
  | none

/-- A Python dict (an item), as an ordered association list with unique keys. -/
abbrev Item := List (String × Value)

/-- Zero-pad a numeral to two digits. -/
def pad2 (n : Nat) : String :=
  if n < 10 then "0" ++ toString n else toString n

/-- Zero-pad a numeral to four digits. -/
def pad4 (n : Nat) : String :=
  if n < 10 then "000" ++ toString n
  else if n < 100 then "00" ++ toString n
  else if n < 1000 then "0" ++ toString n
  else toString n

/-- `value.strftime("%Y-%m-%d")` on a `datetime.date`. -/
def strfDate (y m d : Nat) : String :=
  pad4 y ++ "-" ++ pad2 m ++ "-" ++ pad2 d

/-- `str()` of a `datetime.datetime` (second resolution: the embedding does
not model microseconds). -/
def strfDateTime (y m d hh mi ss : Nat) : String :=
  strfDate y m d ++ " " ++ pad2 hh ++ ":" ++ pad2 mi ++ ":" ++ pad2 ss

mutual

/-- Python `str()`, as applied by the f-string in `table_id` to the dataset
and the table value.  In practice those values are strings (taken from the
record or the settings) or `None` (a missing setting); the renderings of
containers approximate Python's `repr` (which quotes strings with single
quotes; double quotes are used here). -/
def pyStr : Value → String
  | .str s => s
  | .int n => toString n
  | .bool b => if b then "True" else "False"
  | .date y m d => strfDate y m d
  | .datetime y m d hh mi ss => strfDateTime y m d hh mi ss
  | .dict fields => "\x7b" ++ pyStrFields fields ++ "\x7d"
  | .list elems => "[" ++ pyStrElems elems ++ "]"
  | .none => "None"

/-- Rendering of dict entries for `pyStr`. -/
def pyStrFields : List (String × Value) → String
  | [] => ""
  | [(k, v)] => "\"" ++ k ++ "\": " ++ pyStr v
  | (k, v) :: rest => "\"" ++ k ++ "\": " ++ pyStr v ++ ", " ++ pyStrFields rest

/-- Rendering of list elements for `pyStr`. -/
def pyStrElems : List Value → String
  | [] => ""
  | [v] => pyStr v
  | v :: rest => pyStr v ++ ", " ++ pyStrElems rest

end

/-- Python `key in d` followed by `d[key]`: the first binding of `key`. -/
def dlookup {α : Type} : List (String × α) → String → Option α
  | [], _ => Option.none
  | (k, v) :: rest, key => if k = key then some v else dlookup rest key

/-- Python `del d[key]`: remove the binding of `key`. -/
def derase {α : Type} : List (String × α) → String → List (String × α)
  | [], _ => []
  | (k, v) :: rest, key =>
      if k = key then derase rest key else (k, v) :: derase rest key

/-- Python `d[key] = v`: update the binding in place if present, else append
a new binding at the end (Python dict insertion order). -/
def dset {α : Type} : List (String × α) → String → α → List (String × α)
  | [], key, v => [(key, v)]
  | (k, w) :: rest, key, v =>
      if k = key then (key, v) :: rest else (k, w) :: dset rest key v

mutual

/-- The local function `serialise_value` in `process_item`: a value that is a
`datetime.date` — which includes `datetime.datetime`, a subclass — is
replaced by `value.strftime("%Y-%m-%d")`; a dict has its values rewritten
recursively in place; every other value (lists included) passes through
unchanged. -/
def serialise_value : Value → Value
  | .date y m d => .str (strfDate y m d)
  | .datetime y m d _ _ _ => .str (strfDate y m d)
  | .dict fields => .dict (serialiseFields fields)
  | v => v

/-- `serialise_value` applied to each value of a dict (the
`for key in value: value[key] = serialise_value(value[key])` loop). -/
def serialiseFields : List (String × Value) → List (String × Value)
  | [] => []
  | (k, v) :: rest => (k, serialise_value v) :: serialiseFields rest

end

/-- The Scrapy settings consulted by the pipeline.  `Option.none` models a
setting that the crawler does not define; the defaults passed to
`settings.get` in the code appear at the use sites. -/
structure Settings where
  bigqueryDataset : Option String := Option.none
  bigqueryTable : Option String := Option.none
  addScrapedTime : Bool := false
  addScraperName : Bool := false
  addScraperSession : Bool := false
  fieldsToSave : Option (List String) := Option.none
  itemBatch : Option Nat := Option.none

/-- An exception raised by `client.create_table`:
`google.api_core.exceptions.Conflict` (the table already exists) or any
other error.  The pipeline code wraps `create_table` in no handler, so
either one propagates out of `ensure_table_created`. -/
inductive CreateExc where
  | conflict
  | other
  deriving DecidableEq

/-- A BigQuery client call issued by the pipeline, in order. -/
inductive StoreOp where
  | getTable (tableId : String)
  | createTable (tableId : String)
  | insertRows (tableId : String) (rows : List Item)

/-- The oracle for the BigQuery client and the schema generator: what each
call would return if issued. -/
structure Store where
  tableExists : String → Bool
  createExc : String → Option CreateExc
  schemaErrors : Item → List (Nat × String)
  insertErrors : String → List Item → List String

/-- The mutable pipeline attributes: `self.tables_created` (a set) and
`self.item_cache` (a dict from table id to buffered rows). -/
structure PipelineState where
  tablesCreated : List String
  itemCache : List (String × List Item)

/-- The immutable pipeline attributes fixed at construction:
`self.project_id` and `self.session_id`. -/
structure Pipeline where
  projectId : String
  sessionId : String

/-- `BigQueryPipeline.bigquery_dataset_key`. -/
def bigquery_dataset_key : String := "BIGQUERY_DATASET"

/-- `BigQueryPipeline.bigquery_table_key`. -/
def bigquery_table_key : String := "BIGQUERY_TABLE"

/-- The closure `extract_and_delete` in `table_id`: if the record holds the
routing field, take its value and delete the field; otherwise fall back to
`spider.settings[key]`, which in Scrapy yields the setting's value or `None`
when the setting is missing (it does not raise). -/
def extract_and_delete (item : Item) (settingVal : Option String) (key : String) :
    Value × Item :=
  match dlookup item key with
  | some v => (v, derase item key)
  | Option.none =>
      ((match settingVal with
        | some s => Value.str s
        | Option.none => Value.none), item)

/-- Does a value have Python type `datetime.datetime` (the exact check on
line 100 of the source, which matches `datetime` but not plain `date`)? -/
def isDatetimeValue : Value → Bool
  | .datetime _ _ _ _ _ _ => true
  | _ => false

/-- `BigQueryPipeline.table_id`: resolve the destination, strip the routing
fields, optionally stamp enrichment fields, and render every top-level
`datetime.datetime` field with `str()`.  `now` is the value
`datetime.datetime.now()` would produce during the call. -/
def table_id (p : Pipeline) (s : Settings) (spiderName : String) (now : Value)
    (item : Item) : String × Item :=
  let r1 := extract_and_delete item s.bigqueryDataset bigquery_dataset_key
  let dataset := r1.1
  let r2 := extract_and_delete r1.2 s.bigqueryTable bigquery_table_key
  let table := r2.1
  let item2 := r2.2
  let item3 := if s.addScrapedTime then dset item2 "scraped_time" now else item2
  let item4 := if s.addScraperName then dset item3 "scraper" (.str spiderName) else item3
  let item5 :=
    if s.addScraperSession then dset item4 "scraper_session_id" (.str p.sessionId)
    else item4
  let item6 := item5.map fun kv =>
    if isDatetimeValue kv.2 then (kv.1, Value.str (pyStr kv.2)) else kv
  (p.projectId ++ "." ++ pyStr dataset ++ "." ++ pyStr table, item6)

/-- `BigQueryPipeline.ensure_table_created`: return immediately if the id is
registered; otherwise issue `get_table`, and on `NotFound` deduce a schema
(logging its errors) and issue `create_table` — whose exceptions, if any,
propagate, in which case the id is never registered. -/
def ensure_table_created (store : Store) (st : PipelineState) (tableId : String)
    (item : Item) : Except CreateExc (PipelineState × List StoreOp × List String) :=
  if tableId ∈ st.tablesCreated then
    .ok (st, [], [])
  else if store.tableExists tableId then
    .ok ({ st with tablesCreated := tableId :: st.tablesCreated },
         [.getTable tableId], [])
  else
    let logs := (store.schemaErrors item).map fun e =>
      "Problem generating BigQuery Schema " ++ toString e.1 ++ ": " ++ e.2
    match store.createExc tableId with
    | some exc => .error exc
    | Option.none =>
        .ok ({ st with tablesCreated := tableId :: st.tablesCreated },
             [.getTable tableId, .createTable tableId], logs)

/-- One iteration of the `for table_id in self.item_cache` loop in
`flush_items`: skip an empty buffer; insert and clear a buffer that has
reached the batch size or when `force` is set; leave others untouched. -/
def flushOne (store : Store) (batch : Nat) (force : Bool) (tid : String)
    (items : List Item) : List Item × List StoreOp × List String :=
  if items.isEmpty then (items, [], [])
  else if batch ≤ items.length ∨ force = true then
    let errors := store.insertErrors tid items
    ([], [.insertRows tid items],
     if errors = [] then []
     else ["Error inserting rows to BigQuery: " ++ String.intercalate ", " errors])
  else (items, [], [])

/-- The whole `for` loop of `flush_items` over the item cache, returning the
updated cache, the issued store calls and the log lines. -/
def flushCache (store : Store) (batch : Nat) (force : Bool) :
    List (String × List Item) → List (String × List Item) × List StoreOp × List String
  | [] => ([], [], [])
  | (tid, items) :: rest =>
      ((tid, (flushOne store batch force tid items).1) ::
         (flushCache store batch force rest).1,
       (flushOne store batch force tid items).2.1 ++
         (flushCache store batch force rest).2.1,
       (flushOne store batch force tid items).2.2 ++
         (flushCache store batch force rest).2.2)

/-- `BigQueryPipeline.flush_items`.  The batch size is
`spider.settings.get("BIGQUERY_ITEM_BATCH", 1)`. -/
def flush_items (store : Store) (s : Settings) (force : Bool) (st : PipelineState) :
    PipelineState × List StoreOp × List String :=
  let r := flushCache store (s.itemBatch.getD 1) force st.itemCache
  ({ st with itemCache := r.1 }, r.2.1, r.2.2)

/-- `if table_id not in self.item_cache: self.item_cache[table_id] = []`. -/
def cache_init (cache : List (String × List Item)) (tid : String) :
    List (String × List Item) :=
  if (dlookup cache tid).isSome then cache else cache ++ [(tid, [])]

/-- `self.item_cache[table_id].append(item)`. -/
def cache_append : List (String × List Item) → String → Item →
    List (String × List Item)
  | [], _, _ => []
  | (k, items) :: rest, tid, item =>
      if k = tid then (k, items ++ [item]) :: rest
      else (k, items) :: cache_append rest tid item

/-- The `BIGQUERY_FIELDS_TO_SAVE` projection in `process_item`: applied only
when the setting is truthy in Python (present and a non-empty collection). -/
def project_fields (s : Settings) (item : Item) : Item :=
  match s.fieldsToSave with
  | some fs =>
      if fs = [] then item
      else item.filter fun kv => decide (kv.1 ∈ fs)
  | Option.none => item

/-- The two buffering lines of `process_item`: create an empty buffer for an
unseen destination, then append the item to the destination's buffer. -/
def buffered_state (st : PipelineState) (tid : String) (item : Item) :
    PipelineState :=
  { st with itemCache := cache_append (cache_init st.itemCache tid) tid item }

/-- `BigQueryPipeline.process_item`: resolve the destination, ensure the
table exists (exceptions propagate), project to `BIGQUERY_FIELDS_TO_SAVE`
when that setting is truthy, serialise, buffer, and flush without force.
Returns the stored item together with the new state, the store calls and the
log lines. -/
def process_item (store : Store) (p : Pipeline) (s : Settings)
    (spiderName : String) (now : Value) (st : PipelineState) (item : Item) :
    Except CreateExc (Item × PipelineState × List StoreOp × List String) :=
  let r := table_id p s spiderName now item
  let tableId := r.1
  let item1 := r.2
  match ensure_table_created store st tableId item1 with
  | .error e => .error e
  | .ok (st1, ops1, logs1) =>
      let item3 := serialiseFields (project_fields s item1)
      let fr := flush_items store s false (buffered_state st1 tableId item3)
      .ok (item3, fr.1, ops1 ++ fr.2.1, logs1 ++ fr.2.2)

/-- `BigQueryPipeline.close_spider`: a forced flush of every buffer. -/
def close_spider (store : Store) (s : Settings) (st : PipelineState) :
    PipelineState × List StoreOp × List String :=
  flush_items store s true st

/-- A sequence of `ensure_table_created` calls for one destination (one per
incoming item), threading the state and concatenating the store calls. -/
def ensureSeq (store : Store) (tableId : String) :
    List Item → PipelineState → Except CreateExc (PipelineState × List StoreOp)
  | [], st => .ok (st, [])
  | item :: rest, st =>
      match ensure_table_created store st tableId item with
      | .error e => .error e
      | .ok (st1, ops, _) =>
          match ensureSeq store tableId rest st1 with
          | .error e => .error e
          | .ok (st2, ops2) => .ok (st2, ops ++ ops2)

/-- Is this store call `get_table` for the given id? -/
def isGetFor (tid : String) : StoreOp → Bool
  | .getTable t => t == tid
  | _ => false

/-- Is this store call `create_table` for the given id? -/
def isCreateFor (tid : String) : StoreOp → Bool
  | .createTable t => t == tid
  | _ => false

/-- Is this store call a bulk insert? -/
def isInsertOp : StoreOp → Bool
  | .insertRows _ _ => true
  | _ => false

/-- Is this store call a bulk insert for the given id? -/
def isInsertFor (tid : String) : StoreOp → Bool
  | .insertRows t _ => t == tid
  | _ => false

/-- Every buffered sequence is empty or strictly below the batch size.  This
holds of every reachable pipeline state (see the preservation lemmas). -/
def belowBatch (batch : Nat) (st : PipelineState) : Prop :=
  ∀ e ∈ st.itemCache, e.2 = [] ∨ e.2.length < batch

/-! ### Association-list lemmas -/

theorem dlookup_eq_none {α : Type} (c : List (String × α)) (k : String) :
    dlookup c k = Option.none ↔ k ∉ c.map Prod.fst := by
  induction c with
  | nil => simp [dlookup]
  | cons e rest ih =>
      obtain ⟨k1, v1⟩ := e
      by_cases h : k1 = k
      · subst h; simp [dlookup]
      · have h2 : ¬ k = k1 := fun hh => h hh.symm
        simp [dlookup, h, h2, ih]

theorem dlookup_mem {α : Type} {c : List (String × α)} {k : String} {v : α}
    (h : dlookup c k = some v) : (k, v) ∈ c := by
  induction c with
  | nil => simp [dlookup] at h
  | cons e rest ih =>
      obtain ⟨k1, v1⟩ := e
      by_cases hk : k1 = k
      · subst hk
        simp [dlookup] at h
        simp [h]
      · simp [dlookup, hk] at h
        exact List.mem_cons_of_mem _ (ih h)

theorem dlookup_append_left {α : Type} {c1 : List (String × α)} {k : String}
    {v : α} (c2 : List (String × α)) (h : dlookup c1 k = some v) :
    dlookup (c1 ++ c2) k = some v := by
  induction c1 with
  | nil => simp [dlookup] at h
  | cons e rest ih =>
      obtain ⟨k1, v1⟩ := e
      by_cases hk : k1 = k <;> simp_all [dlookup, hk]

theorem dlookup_append_right {α : Type} {c1 : List (String × α)} {k : String}
    (c2 : List (String × α)) (h : dlookup c1 k = Option.none) :
    dlookup (c1 ++ c2) k = dlookup c2 k := by
  induction c1 with
  | nil => simp [dlookup]
  | cons e rest ih =>
      obtain ⟨k1, v1⟩ := e
      by_cases hk : k1 = k <;> simp_all [dlookup, hk]

theorem dlookup_map {α β : Type} (c : List (String × α)) (g : String → α → β)
    (k : String) :
    dlookup (c.map fun e => (e.1, g e.1 e.2)) k = (dlookup c k).map (g k) := by
  induction c with
  | nil => simp [dlookup]
  | cons e rest ih =>
      obtain ⟨k1, v1⟩ := e
      by_cases hk : k1 = k
      · subst hk; simp [dlookup]
      · simp [dlookup, hk, ih]

/-! ### Buffer (item cache) lemmas -/

theorem cache_init_of_none {c : List (String × List Item)} {tid : String}
    (h : dlookup c tid = Option.none) : cache_init c tid = c ++ [(tid, [])] := by
  simp [cache_init, h]

theorem cache_init_of_some {c : List (String × List Item)} {tid : String}
    (h : (dlookup c tid).isSome) : cache_init c tid = c := by
  simp [cache_init, h]

theorem cache_init_lookup_ne {c : List (String × List Item)} {tid k : String}
    (h : k ≠ tid) : dlookup (cache_init c tid) k = dlookup c k := by
  cases hl : dlookup c tid with
  | some v => simp [cache_init, hl]
  | none =>
      rw [cache_init_of_none hl]
      cases hk : dlookup c k with
      | some v => exact dlookup_append_left _ hk
      | none =>
          rw [dlookup_append_right _ hk]
          simp [dlookup, h.symm, hk]

theorem cache_append_lookup_ne {c : List (String × List Item)}
    {tid k : String} (item : Item) (h : k ≠ tid) :
    dlookup (cache_append c tid item) k = dlookup c k := by
  induction c with
  | nil => simp [cache_append]
  | cons e rest ih =>
      obtain ⟨k1, items1⟩ := e
      by_cases h1 : k1 = tid
      · subst h1
        rw [cache_append, if_pos rfl]
        simp [dlookup, h.symm]
      · rw [cache_append, if_neg h1]
        by_cases h2 : k1 = k <;> simp [dlookup, h2, ih]

theorem cache_append_lookup_eq {c : List (String × List Item)} {tid : String}
    {items : List Item} (item : Item) (h : dlookup c tid = some items) :
    dlookup (cache_append c tid item) tid = some (items ++ [item]) := by
  induction c with
  | nil => simp [dlookup] at h
  | cons e rest ih =>
      obtain ⟨k1, items1⟩ := e
      by_cases h1 : k1 = tid
      · subst h1
        simp [dlookup] at h
        subst h
        simp [cache_append, dlookup]
      · simp [dlookup, h1] at h
        simp [cache_append, dlookup, h1, ih h]

theorem cache_append_mem_ne {c : List (String × List Item)} {tid k : String}
    {item : Item} {v : List Item}
    (h : (k, v) ∈ cache_append c tid item) (hk : k ≠ tid) : (k, v) ∈ c := by
  induction c with
  | nil => simp [cache_append] at h
  | cons e rest ih =>
      obtain ⟨k1, items1⟩ := e
      by_cases h1 : k1 = tid
      · subst h1
        simp [cache_append] at h
        rcases h with ⟨h2, _⟩ | h2
        · exact (hk h2).elim
        · exact List.mem_cons_of_mem _ h2
      · simp [cache_append, h1] at h
        rcases h with ⟨h2, h3⟩ | h2
        · simp [h2, h3]
        · exact List.mem_cons_of_mem _ (ih h2)

theorem cache_init_mem_ne {c : List (String × List Item)} {tid k : String}
    {v : List Item} (h : (k, v) ∈ cache_init c tid) (hk : k ≠ tid) :
    (k, v) ∈ c := by
  cases hl : dlookup c tid with
  | some w => rwa [cache_init_of_some (by simp [hl])] at h
  | none =>
      rw [cache_init_of_none hl] at h
      rcases List.mem_append.mp h with h3 | h3
      · exact h3
      · simp at h3
        exact absurd h3.1 hk

theorem cache_append_last {c : List (String × List Item)} {tid : String}
    (items : List Item) (item : Item) (h : dlookup c tid = Option.none) :
    cache_append (c ++ [(tid, items)]) tid item = c ++ [(tid, items ++ [item])] := by
  induction c with
  | nil => simp [cache_append]
  | cons e rest ih =>
      obtain ⟨k1, items1⟩ := e
      by_cases h1 : k1 = tid
      · simp [dlookup, h1] at h
      · simp [dlookup, h1] at h
        simp [cache_append, h1, ih h]

/-! ### Flush lemmas -/

theorem flushOne_skip (store : Store) {batch : Nat} {items : List Item}
    (tid : String) (h : items = [] ∨ items.length < batch) :
    flushOne store batch false tid items = (items, [], []) := by
  rcases h with h | h
  · subst h; simp [flushOne]
  · cases items with
    | nil => simp [flushOne]
    | cons a rest =>
        have h1 : rest.length + 1 < batch := by simpa using h
        have h2 : ¬ batch ≤ rest.length + 1 := Nat.not_le.mpr h1
        simp [flushOne, h2]

theorem flushOne_fire (store : Store) {batch : Nat} {items : List Item}
    (force : Bool) (tid : String) (hne : items ≠ [])
    (helig : batch ≤ items.length ∨ force = true) :
    (flushOne store batch force tid items).1 = [] ∧
    (flushOne store batch force tid items).2.1 = [.insertRows tid items] := by
  cases items with
  | nil => exact absurd rfl hne
  | cons a rest =>
      have h1 : batch ≤ rest.length + 1 ∨ force = true := by simpa using helig
      simp [flushOne, h1]

theorem flushOne_below (store : Store) (batch : Nat) (tid : String)
    (items : List Item) :
    (flushOne store batch false tid items).1 = [] ∨
    (flushOne store batch false tid items).1.length < batch := by
  cases items with
  | nil => simp [flushOne]
  | cons a rest =>
      by_cases he : batch ≤ rest.length + 1
      · simp [flushOne, he]
      · simp [flushOne, he]
        exact Nat.not_le.mp he

theorem flushOne_force_empty (store : Store) (batch : Nat) (tid : String)
    (items : List Item) : (flushOne store batch true tid items).1 = [] := by
  cases items with
  | nil => simp [flushOne]
  | cons a rest => simp [flushOne]

theorem flushOne_state_indep (s1 s2 : Store) (b : Nat) (f : Bool)
    (tid : String) (items : List Item) :
    (flushOne s1 b f tid items).1 = (flushOne s2 b f tid items).1 ∧
    (flushOne s1 b f tid items).2.1 = (flushOne s2 b f tid items).2.1 := by
  cases items with
  | nil => simp [flushOne]
  | cons a rest =>
      by_cases he : b ≤ rest.length + 1 ∨ f = true <;> simp [flushOne, he]

theorem flushCache_fst (store : Store) (batch : Nat) (force : Bool)
    (c : List (String × List Item)) :
    (flushCache store batch force c).1 =
      c.map fun e => (e.1, (flushOne store batch force e.1 e.2).1) := by
  induction c with
  | nil => simp [flushCache]
  | cons e rest ih =>
      obtain ⟨tid, items⟩ := e
      simp [flushCache, ih]

theorem flushCache_skip (store : Store) {batch : Nat}
    {c : List (String × List Item)}
    (h : ∀ e ∈ c, e.2 = [] ∨ e.2.length < batch) :
    flushCache store batch false c = (c, [], []) := by
  induction c with
  | nil => rfl
  | cons e rest ih =>
      obtain ⟨tid, items⟩ := e
      have h1 := h (tid, items) (List.mem_cons_self _ _)
      have h2 := ih fun e he => h e (List.mem_cons_of_mem _ he)
      simp [flushCache, flushOne_skip store tid h1, h2]

theorem flushCache_append (store : Store) (b : Nat) (f : Bool)
    (c1 c2 : List (String × List Item)) :
    flushCache store b f (c1 ++ c2) =
      ((flushCache store b f c1).1 ++ (flushCache store b f c2).1,
       (flushCache store b f c1).2.1 ++ (flushCache store b f c2).2.1,
       (flushCache store b f c1).2.2 ++ (flushCache store b f c2).2.2) := by
  induction c1 with
  | nil => simp [flushCache]
  | cons e rest ih =>
      obtain ⟨tid, items⟩ := e
      simp [flushCache, ih]

theorem flushCache_ops_mem {store : Store} {batch : Nat} {force : Bool}
    {c : List (String × List Item)} {op : StoreOp}
    (h : op ∈ (flushCache store batch force c).2.1) :
    ∃ tid items, op = .insertRows tid items ∧ (tid, items) ∈ c ∧
      items ≠ [] ∧ (batch ≤ items.length ∨ force = true) := by
  induction c with
  | nil => simp [flushCache] at h
  | cons e rest ih =>
      obtain ⟨tid, items⟩ := e
      rw [flushCache] at h
      rcases List.mem_append.mp h with h | h
      · cases items with
        | nil => simp [flushOne] at h
        | cons a as =>
            by_cases he : batch ≤ as.length + 1 ∨ force = true
            · simp [flushOne, he] at h
              exact ⟨tid, a :: as, h, List.mem_cons_self _ _, by simp,
                     by simpa using he⟩
            · simp [flushOne, he] at h
      · obtain ⟨t2, i2, h1, h2, h3, h4⟩ := ih h
        exact ⟨t2, i2, h1, List.mem_cons_of_mem _ h2, h3, h4⟩

theorem flushCache_store_indep (s1 s2 : Store) (b : Nat) (f : Bool)
    (c : List (String × List Item)) :
    (flushCache s1 b f c).1 = (flushCache s2 b f c).1 ∧
    (flushCache s1 b f c).2.1 = (flushCache s2 b f c).2.1 := by
  induction c with
  | nil => simp [flushCache]
  | cons e rest ih =>
      obtain ⟨tid, items⟩ := e
      have h1 := flushOne_state_indep s1 s2 b f tid items
      simp [flushCache, h1.1, h1.2, ih.1, ih.2]

theorem flushCache_below (store : Store) (batch : Nat)
    (c : List (String × List Item)) :
    ∀ e ∈ (flushCache store batch false c).1, e.2 = [] ∨ e.2.length < batch := by
  intro e he
  rw [flushCache_fst] at he
  obtain ⟨e0, _, he2⟩ := List.mem_map.mp he
  rw [← he2]
  exact flushOne_below store batch e0.1 e0.2

theorem flushCache_force_empty (store : Store) (batch : Nat)
    (c : List (String × List Item)) :
    ∀ e ∈ (flushCache store batch true c).1, e.2 = [] := by
  intro e he
  rw [flushCache_fst] at he
  obtain ⟨e0, _, he2⟩ := List.mem_map.mp he
  rw [← he2]
  exact flushOne_force_empty store batch e0.1 e0.2

theorem flushCache_dlookup (store : Store) (b : Nat) (f : Bool)
    (c : List (String × List Item)) (tid : String) :
    dlookup (flushCache store b f c).1 tid =
      (dlookup c tid).map fun items => (flushOne store b f tid items).1 := by
  rw [flushCache_fst]
  exact dlookup_map c (fun k v => (flushOne store b f k v).1) tid

theorem flushCache_insert_mem {store : Store} {b : Nat} {f : Bool}
    {c : List (String × List Item)} {tid : String} {items : List Item}
    (h : dlookup c tid = some items) (hne : items ≠ [])
    (helig : b ≤ items.length ∨ f = true) :
    StoreOp.insertRows tid items ∈ (flushCache store b f c).2.1 := by
  induction c with
  | nil => simp [dlookup] at h
  | cons e rest ih =>
      obtain ⟨k1, i1⟩ := e
      by_cases h1 : k1 = tid
      · subst h1
        simp [dlookup] at h
        subst h
        rw [flushCache]
        exact List.mem_append_left _
          (by rw [(flushOne_fire store f k1 hne helig).2]; exact List.mem_cons_self _ _)
      · simp [dlookup, h1] at h
        rw [flushCache]
        exact List.mem_append_right _ (ih h)

/-! ### Provisioning lemmas -/

theorem ensure_registered {store : Store} {st : PipelineState} {tid : String}
    (item : Item) (h : tid ∈ st.tablesCreated) :
    ensure_table_created store st tid item = .ok (st, [], []) := by
  simp [ensure_table_created, h]

theorem ensure_ok_spec {store : Store} {st : PipelineState} {tid : String}
    {item : Item} {st1 : PipelineState} {ops : List StoreOp} {logs : List String}
    (h : ensure_table_created store st tid item = .ok (st1, ops, logs)) :
    st1.itemCache = st.itemCache ∧ tid ∈ st1.tablesCreated ∧
    (∀ op ∈ ops, isInsertOp op = false) ∧
    ops.countP (isGetFor tid) ≤ 1 ∧ ops.countP (isCreateFor tid) ≤ 1 := by
  unfold ensure_table_created at h
  by_cases h1 : tid ∈ st.tablesCreated
  · rw [if_pos h1] at h
    cases h
    exact ⟨rfl, h1, by simp, by simp, by simp⟩
  · rw [if_neg h1] at h
    by_cases h2 : store.tableExists tid = true
    · rw [if_pos h2] at h
      cases h
      refine ⟨rfl, List.mem_cons_self _ _, ?_, ?_, ?_⟩ <;>
        simp [isInsertOp, isGetFor, isCreateFor]
    · rw [if_neg h2] at h
      cases h3 : store.createExc tid with
      | some exc => rw [h3] at h; simp at h
      | none =>
          rw [h3] at h
          cases h
          refine ⟨rfl, List.mem_cons_self _ _, ?_, ?_, ?_⟩ <;>
            simp [isInsertOp, isGetFor, isCreateFor]

theorem ensure_ok_exists {store : Store} {tid : String} (st : PipelineState)
    (item : Item) (h : store.createExc tid = Option.none) :
    ∃ st1 ops logs,
      ensure_table_created store st tid item = .ok (st1, ops, logs) := by
  unfold ensure_table_created
  by_cases h1 : tid ∈ st.tablesCreated
  · exact ⟨_, _, _, by rw [if_pos h1]⟩
  · rw [if_neg h1]
    by_cases h2 : store.tableExists tid = true
    · exact ⟨_, _, _, by rw [if_pos h2]⟩
    · rw [if_neg h2, h]
      exact ⟨_, _, _, rfl⟩

theorem ensureSeq_registered {store : Store} {tid : String}
    (items : List Item) {st : PipelineState} (h : tid ∈ st.tablesCreated) :
    ensureSeq store tid items st = .ok (st, []) := by
  induction items with
  | nil => rfl
  | cons item rest ih =>
      have h2 := @ensure_registered store st tid item h
      simp [ensureSeq, h2, ih]

/-- `process_item` with its let-bindings expanded (definitional). -/
theorem process_item_eq (store : Store) (p : Pipeline) (s : Settings)
    (sn : String) (now : Value) (st : PipelineState) (item : Item) :
    process_item store p s sn now st item =
      match ensure_table_created store st (table_id p s sn now item).1
          (table_id p s sn now item).2 with
      | .error e => .error e
      | .ok (st1, ops1, logs1) =>
          .ok (serialiseFields (project_fields s (table_id p s sn now item).2),
               (flush_items store s false (buffered_state st1
                 (table_id p s sn now item).1
                 (serialiseFields (project_fields s (table_id p s sn now item).2)))).1,
               ops1 ++ (flush_items store s false (buffered_state st1
                 (table_id p s sn now item).1
                 (serialiseFields (project_fields s (table_id p s sn now item).2)))).2.1,
               logs1 ++ (flush_items store s false (buffered_state st1
                 (table_id p s sn now item).1
                 (serialiseFields (project_fields s (table_id p s sn now item).2)))).2.2) :=
  rfl

theorem dlookup_of_mem_nodup {α : Type} {c : List (String × α)} {k : String}
    {v : α} (hnd : (c.map Prod.fst).Nodup) (h : (k, v) ∈ c) :
    dlookup c k = some v := by
  induction c with
  | nil => cases h
  | cons e rest ih =>
      obtain ⟨k1, v1⟩ := e
      rw [List.map_cons, List.nodup_cons] at hnd
      rcases List.mem_cons.mp h with h1 | h1
      · obtain ⟨hk, hv⟩ := Prod.mk.injEq .. ▸ h1
        subst hk
        subst hv
        simp [dlookup]
      · have hk : k1 ≠ k := by
          intro he
          subst he
          exact hnd.1 (List.mem_map.mpr ⟨(k1, v), h1, rfl⟩)
        rw [dlookup, if_neg hk]
        exact ih hnd.2 h1

theorem flushCache_keys (store : Store) (b : Nat) (f : Bool)
    (c : List (String × List Item)) :
    (flushCache store b f c).1.map Prod.fst = c.map Prod.fst := by
  rw [flushCache_fst, List.map_map]
  rfl

theorem filter_isInsertFor_nil {ops : List StoreOp} {tid : String}
    (h : ∀ op ∈ ops, isInsertFor tid op = false) :
    ops.filter (isInsertFor tid) = [] := by
  induction ops with
  | nil => rfl
  | cons op rest ih =>
      rw [List.filter_cons]
      simp only [h op (List.mem_cons_self _ _), if_false, Bool.false_eq_true]
      exact ih fun o ho => h o (List.mem_cons_of_mem _ ho)

theorem filter_isInsertOp_nil {ops : List StoreOp}
    (h : ∀ op ∈ ops, isInsertOp op = false) :
    ops.filter isInsertOp = [] := by
  induction ops with
  | nil => rfl
  | cons op rest ih =>
      rw [List.filter_cons]
      simp only [h op (List.mem_cons_self _ _), if_false, Bool.false_eq_true]
      exact ih fun o ho => h o (List.mem_cons_of_mem _ ho)

/-! ### Key-set lemmas for destination resolution and normalization -/

theorem derase_not_mem {α : Type} (c : List (String × α)) (key : String) :
    key ∉ (derase c key).map Prod.fst := by
  induction c with
  | nil => simp [derase]
  | cons e rest ih =>
      obtain ⟨k1, v1⟩ := e
      by_cases h : k1 = key
      · rw [derase, if_pos h]
        exact ih
      · rw [derase, if_neg h]
        simp only [List.map_cons, List.mem_cons]
        push_neg
        exact ⟨fun h2 => h h2.symm, ih⟩

theorem derase_keys_mem {α : Type} {c : List (String × α)} {k : String}
    (key : String) (h : k ∈ c.map Prod.fst) (hne : k ≠ key) :
    k ∈ (derase c key).map Prod.fst := by
  induction c with
  | nil => simp at h
  | cons e rest ih =>
      obtain ⟨k1, v1⟩ := e
      simp only [List.map_cons, List.mem_cons] at h
      by_cases h1 : k1 = key
      · rw [derase, if_pos h1]
        rcases h with h | h
        · exact absurd (h.trans h1) hne
        · exact ih h
      · rw [derase, if_neg h1]
        simp only [List.map_cons, List.mem_cons]
        rcases h with h | h
        · exact Or.inl h
        · exact Or.inr (ih h)

theorem derase_keys_sub {α : Type} {c : List (String × α)} {k key : String}
    (h : k ∈ (derase c key).map Prod.fst) : k ∈ c.map Prod.fst := by
  induction c with
  | nil => simp [derase] at h
  | cons e rest ih =>
      obtain ⟨k1, v1⟩ := e
      by_cases h1 : k1 = key
      · rw [derase, if_pos h1] at h
        simp only [List.map_cons, List.mem_cons]
        exact Or.inr (ih h)
      · rw [derase, if_neg h1] at h
        simp only [List.map_cons, List.mem_cons] at h ⊢
        rcases h with h | h
        · exact Or.inl h
        · exact Or.inr (ih h)

theorem dset_keys_mem {α : Type} {c : List (String × α)} {k : String}
    (key : String) (v : α) (h : k ∈ c.map Prod.fst) :
    k ∈ (dset c key v).map Prod.fst := by
  induction c with
  | nil => simp at h
  | cons e rest ih =>
      obtain ⟨k1, v1⟩ := e
      simp only [List.map_cons, List.mem_cons] at h
      by_cases h1 : k1 = key
      · rw [dset, if_pos h1]
        simp only [List.map_cons, List.mem_cons]
        rcases h with h | h
        · exact Or.inl (h.trans h1)
        · exact Or.inr h
      · rw [dset, if_neg h1]
        simp only [List.map_cons, List.mem_cons]
        rcases h with h | h
        · exact Or.inl h
        · exact Or.inr (ih h)

theorem dset_keys_sub {α : Type} {c : List (String × α)} {k key : String}
    {v : α} (h : k ∈ (dset c key v).map Prod.fst) :
    k ∈ c.map Prod.fst ∨ k = key := by
  induction c with
  | nil =>
      simp [dset] at h
      exact Or.inr h
  | cons e rest ih =>
      obtain ⟨k1, v1⟩ := e
      by_cases h1 : k1 = key
      · rw [dset, if_pos h1] at h
        simp only [List.map_cons, List.mem_cons] at h ⊢
        rcases h with h | h
        · exact Or.inr h
        · exact Or.inl (Or.inr h)
      · rw [dset, if_neg h1] at h
        simp only [List.map_cons, List.mem_cons] at h ⊢
        rcases h with h | h
        · exact Or.inl (Or.inl h)
        · rcases ih h with h2 | h2
          · exact Or.inl (Or.inr h2)
          · exact Or.inr h2

theorem condset_keys_mem {j : Item} {k : String} (b : Bool) (key : String)
    (v : Value) (h : k ∈ j.map Prod.fst) :
    k ∈ ((if b then dset j key v else j).map Prod.fst) := by
  cases b
  · simpa using h
  · simpa using dset_keys_mem key v h

theorem condset_keys_sub {j : Item} {k : String} (b : Bool) (key : String)
    (v : Value) (h : k ∈ ((if b then dset j key v else j).map Prod.fst)) :
    k ∈ j.map Prod.fst ∨ k = key := by
  cases b
  · exact Or.inl (by simpa using h)
  · exact dset_keys_sub (by simpa using h)

theorem extract_key_not_mem (item : Item) (sv : Option String) (key : String) :
    key ∉ ((extract_and_delete item sv key).2.map Prod.fst) := by
  unfold extract_and_delete
  cases hl : dlookup item key with
  | some v => exact derase_not_mem item key
  | none => exact (dlookup_eq_none item key).mp hl

theorem extract_keys_mem {item : Item} {k : String} (sv : Option String)
    (key : String) (h : k ∈ item.map Prod.fst) (hne : k ≠ key) :
    k ∈ ((extract_and_delete item sv key).2.map Prod.fst) := by
  unfold extract_and_delete
  cases hl : dlookup item key with
  | some v => exact derase_keys_mem key h hne
  | none => exact h

theorem extract_keys_sub {item : Item} {k : String} {sv : Option String}
    {key : String}
    (h : k ∈ ((extract_and_delete item sv key).2.map Prod.fst)) :
    k ∈ item.map Prod.fst := by
  unfold extract_and_delete at h
  cases hl : dlookup item key with
  | some v =>
      rw [hl] at h
      exact derase_keys_sub h
  | none =>
      rw [hl] at h
      exact h

theorem project_keys_mem {s : Settings} {j : Item} {k : String}
    (h : k ∈ j.map Prod.fst)
    (hfs : ∀ fs, s.fieldsToSave = some fs → fs ≠ [] → k ∈ fs) :
    k ∈ (project_fields s j).map Prod.fst := by
  unfold project_fields
  cases hf : s.fieldsToSave with
  | none => exact h
  | some fs =>
      by_cases hnil : fs = []
      · simp only [if_pos hnil]
        exact h
      · simp only [if_neg hnil]
        obtain ⟨kv, hkv, hk⟩ := List.mem_map.mp h
        refine List.mem_map.mpr ⟨kv, List.mem_filter.mpr ⟨hkv, ?_⟩, hk⟩
        simp [hk, hfs fs hf hnil]

theorem project_keys_sub {s : Settings} {j : Item} {k : String}
    (h : k ∈ (project_fields s j).map Prod.fst) : k ∈ j.map Prod.fst := by
  unfold project_fields at h
  cases hf : s.fieldsToSave with
  | none =>
      rw [hf] at h
      exact h
  | some fs =>
      rw [hf] at h
      by_cases hnil : fs = []
      · simp only [if_pos hnil] at h
        exact h
      · simp only [if_neg hnil] at h
        obtain ⟨kv, hkv, hk⟩ := List.mem_map.mp h
        exact List.mem_map.mpr ⟨kv, (List.mem_filter.mp hkv).1, hk⟩

theorem serialiseFields_keys (l : List (String × Value)) :
    (serialiseFields l).map Prod.fst = l.map Prod.fst := by
  induction l with
  | nil => rfl
  | cons e rest ih =>
      obtain ⟨k1, v1⟩ := e
      simp [serialiseFields, ih]

theorem dtpass_keys (l : Item) :
    ((l.map fun kv => if isDatetimeValue kv.2 then (kv.1, Value.str (pyStr kv.2))
      else kv).map Prod.fst) = l.map Prod.fst := by
  induction l with
  | nil => rfl
  | cons e rest ih =>
      obtain ⟨k1, v1⟩ := e
      by_cases h : isDatetimeValue v1 = true <;> simp [h, ih]

/-- Key-set facts about `table_id`'s returned record: the two routing keys
are gone, and every other original key survives (enrichment may add keys,
the `str()` pass renames none). -/
theorem table_id_keys (p : Pipeline) (s : Settings) (sn : String) (now : Value)
    (item : Item) :
    (bigquery_dataset_key ∉ ((table_id p s sn now item).2.map Prod.fst) ∧
     bigquery_table_key ∉ ((table_id p s sn now item).2.map Prod.fst)) ∧
    ∀ k ∈ item.map Prod.fst, k ≠ bigquery_dataset_key →
      k ≠ bigquery_table_key →
      k ∈ ((table_id p s sn now item).2.map Prod.fst) := by
  set i1 := (extract_and_delete item s.bigqueryDataset bigquery_dataset_key).2
    with hi1
  set i2 := (extract_and_delete i1 s.bigqueryTable bigquery_table_key).2 with hi2
  set i3 := (if s.addScrapedTime then dset i2 "scraped_time" now else i2) with hi3
  set i4 := (if s.addScraperName then dset i3 "scraper" (Value.str sn) else i3)
    with hi4
  set i5 := (if s.addScraperSession then
      dset i4 "scraper_session_id" (Value.str p.sessionId) else i4) with hi5
  set i6 := (i5.map fun kv =>
      if isDatetimeValue kv.2 then (kv.1, Value.str (pyStr kv.2)) else kv) with hi6
  have hsnd : (table_id p s sn now item).2 = i6 := rfl
  rw [hsnd, hi6, dtpass_keys]
  have hsub5 : ∀ k, k ∈ i5.map Prod.fst → k ∈ i2.map Prod.fst ∨
      k = "scraped_time" ∨ k = "scraper" ∨ k = "scraper_session_id" := by
    intro k hk
    rw [hi5] at hk
    rcases condset_keys_sub _ _ _ hk with hk4 | hk4
    · rw [hi4] at hk4
      rcases condset_keys_sub _ _ _ hk4 with hk3 | hk3
      · rw [hi3] at hk3
        rcases condset_keys_sub _ _ _ hk3 with hk2 | hk2
        · exact Or.inl hk2
        · exact Or.inr (Or.inl hk2)
      · exact Or.inr (Or.inr (Or.inl hk3))
    · exact Or.inr (Or.inr (Or.inr hk4))
  constructor
  · constructor
    · intro hk
      rcases hsub5 _ hk with hk | hk | hk | hk
      · rw [hi2] at hk
        have hk1 := extract_keys_sub hk
        rw [hi1] at hk1
        exact extract_key_not_mem item s.bigqueryDataset bigquery_dataset_key hk1
      all_goals simp [bigquery_dataset_key] at hk
    · intro hk
      rcases hsub5 _ hk with hk | hk | hk | hk
      · rw [hi2] at hk
        exact extract_key_not_mem i1 s.bigqueryTable bigquery_table_key hk
      all_goals simp [bigquery_table_key] at hk
  · intro k hk h1 h2
    have m1 : k ∈ i1.map Prod.fst := by
      rw [hi1]
      exact extract_keys_mem _ _ hk h1
    have m2 : k ∈ i2.map Prod.fst := by
      rw [hi2]
      exact extract_keys_mem _ _ m1 h2
    have m3 : k ∈ i3.map Prod.fst := by
      rw [hi3]
      exact condset_keys_mem _ _ _ m2
    have m4 : k ∈ i4.map Prod.fst := by
      rw [hi4]
      exact condset_keys_mem _ _ _ m3
    rw [hi5]
    exact condset_keys_mem _ _ _ m4

/-! ### Concrete fixtures for witnesses and counterexamples -/

/-- A store oracle in which every table already exists and no call fails. -/
def demoStore : Store :=
  { tableExists := fun _ => true, createExc := fun _ => Option.none,
    schemaErrors := fun _ => [], insertErrors := fun _ _ => [] }

/-- A store oracle in which the table is absent and `create_table` raises
`Conflict` — the table was created concurrently between the existence check
and the create call. -/
def conflictStore : Store :=
  { tableExists := fun _ => false, createExc := fun _ => some .conflict,
    schemaErrors := fun _ => [], insertErrors := fun _ _ => [] }

/-- A concrete pipeline identity. -/
def demoPipeline : Pipeline := { projectId := "proj", sessionId := "sess" }

/-- Concrete settings: default dataset `d`, default table `t`, everything
else at its default. -/
def demoSettings : Settings :=
  { bigqueryDataset := some "d", bigqueryTable := some "t" }

/-- The pipeline state right after construction. -/
def emptyState : PipelineState := { tablesCreated := [], itemCache := [] }

/-! ### Claims -/

/-- C1: once a destination id is in `tables_created`, every further
`ensure_table_created` call for it returns at once, with no store call and
an unchanged state; consequently any sequence of successful
`ensure_table_created` calls issues at most one `get_table` and at most one
`create_table` call for that id over the process lifetime. -/
theorem c1_provisioning_at_most_once (store : Store) (tid : String) :
    (∀ st item, tid ∈ st.tablesCreated →
       ensure_table_created store st tid item = .ok (st, [], [])) ∧
    (∀ items st st2 ops, ensureSeq store tid items st = .ok (st2, ops) →
       ops.countP (isGetFor tid) ≤ 1 ∧ ops.countP (isCreateFor tid) ≤ 1) := by
  refine ⟨fun st item h => ensure_registered item h, ?_⟩
  intro items
  induction items with
  | nil =>
      intro st st2 ops h
      cases h
      simp
  | cons item rest ih =>
      intro st st2 ops h
      cases he : ensure_table_created store st tid item with
      | error e => simp [ensureSeq, he] at h
      | ok v =>
          obtain ⟨st1, ops1, logs1⟩ := v
          have hspec := ensure_ok_spec he
          have hseq := @ensureSeq_registered store tid rest st1 hspec.2.1
          simp [ensureSeq, he, hseq] at h
          obtain ⟨h1, h2⟩ := h
          subst h2
          exact ⟨hspec.2.2.2.1, hspec.2.2.2.2⟩

theorem c1_provisioning_at_most_once_witness :
    ("proj.d.t" ∈
       ({ tablesCreated := ["proj.d.t"], itemCache := [] } : PipelineState).tablesCreated ∧
     ensure_table_created demoStore
       { tablesCreated := ["proj.d.t"], itemCache := [] } "proj.d.t" [] =
       .ok ({ tablesCreated := ["proj.d.t"], itemCache := [] }, [], [])) ∧
    (ensureSeq demoStore "proj.d.t" [[], []] emptyState =
       .ok ({ tablesCreated := ["proj.d.t"], itemCache := [] },
            [StoreOp.getTable "proj.d.t"]) ∧
     ([StoreOp.getTable "proj.d.t"] : List StoreOp).countP (isGetFor "proj.d.t") ≤ 1 ∧
     ([StoreOp.getTable "proj.d.t"] : List StoreOp).countP (isCreateFor "proj.d.t") ≤ 1) := by
  constructor
  · exact ⟨by simp,
      (c1_provisioning_at_most_once demoStore "proj.d.t").1 _ [] (by simp)⟩
  · exact ⟨rfl,
      (c1_provisioning_at_most_once demoStore "proj.d.t").2 [[], []] emptyState _ _ rfl⟩

/-- C2 (the claim fails on the code): when the table is not found by the
existence check and `create_table` then raises `Conflict` because the table
was created concurrently, `ensure_table_created` does not treat this as
success — the exception propagates to the caller, and the destination id is
never added to `tables_created`.  (The source imports `Conflict` but never
catches it; the spec describes the evidently intended behavior.) -/
theorem c2_conflict_propagates :
    ensure_table_created conflictStore emptyState "proj.d.t" [] =
      .error CreateExc.conflict := rfl

/-- C4 (the claim fails on the code): with a record carrying neither routing
field and settings supplying neither default, `table_id` raises nothing —
Scrapy's `settings[key]` returns `None` for a missing key — and produces the
destination id `"proj.None.None"`, the record passing through unchanged. -/
theorem c4_missing_routing_counterexample :
    table_id demoPipeline { } "sp" Value.none [("n", Value.int 3)] =
      ("proj.None.None", [("n", Value.int 3)]) := rfl

/-- C4 amended: when neither the record nor the configuration supplies a
routing field, destination resolution does not signal an error: the Scrapy
settings lookup yields `None`, which the f-string renders as the literal
component `"None"` inside the produced destination id. -/
theorem c4_missing_routing_yields_none_id (p : Pipeline) (s : Settings)
    (sn : String) (now : Value) (item : Item)
    (hd : dlookup item bigquery_dataset_key = Option.none)
    (ht : dlookup item bigquery_table_key = Option.none)
    (hsd : s.bigqueryDataset = Option.none)
    (hst : s.bigqueryTable = Option.none) :
    (table_id p s sn now item).1 = p.projectId ++ "." ++ "None" ++ "." ++ "None" := by
  simp [table_id, extract_and_delete, hd, ht, hsd, hst, pyStr]

theorem c4_missing_routing_yields_none_id_witness :
    (dlookup ([("n", Value.int 3)] : Item) bigquery_dataset_key = Option.none ∧
     dlookup ([("n", Value.int 3)] : Item) bigquery_table_key = Option.none ∧
     Settings.bigqueryDataset { } = Option.none ∧
     Settings.bigqueryTable { } = Option.none) ∧
    (table_id demoPipeline { } "sp" Value.none [("n", Value.int 3)]).1 =
      demoPipeline.projectId ++ "." ++ "None" ++ "." ++ "None" :=
  ⟨⟨rfl, rfl, rfl, rfl⟩,
   c4_missing_routing_yields_none_id demoPipeline { } "sp" Value.none
     [("n", Value.int 3)] rfl rfl rfl rfl⟩

/-- C9: a `datetime.datetime` in a top-level field is rendered by
`table_id`'s pre-pass as a full date-time string (`str(value)`), while a
`datetime.datetime` nested inside a sub-dict reaches `serialise_value`
unconverted and is rendered date-only by `strftime("%Y-%m-%d")` — its
time-of-day silently dropped — because `isinstance(value, datetime.date)`
also matches `datetime.datetime`. -/
theorem c9_nested_datetime_loses_time (y mo d hh mi ss y2 mo2 d2 hh2 mi2 ss2 : Nat) :
    ∃ st2 ops logs,
      process_item demoStore demoPipeline demoSettings "sp" Value.none emptyState
          [("ts", Value.datetime y mo d hh mi ss),
           ("sub", Value.dict [("t2", Value.datetime y2 mo2 d2 hh2 mi2 ss2)])] =
        .ok ([("ts", Value.str (strfDateTime y mo d hh mi ss)),
              ("sub", Value.dict [("t2", Value.str (strfDate y2 mo2 d2))])],
             st2, ops, logs) :=
  ⟨_, _, _, rfl⟩

/-- C10: `serialise_value` does not recurse into list values: a list — with
all its elements, dates and nested records included — passes through
normalization unchanged, so date objects inside lists reach the store
unserialized. -/
theorem c10_lists_not_recursed (fields : List (String × Value)) (k : String)
    (vs : List Value) (h : (k, Value.list vs) ∈ fields) :
    serialise_value (Value.list vs) = Value.list vs ∧
    (k, Value.list vs) ∈ serialiseFields fields := by
  refine ⟨rfl, ?_⟩
  induction fields with
  | nil => cases h
  | cons e rest ih =>
      obtain ⟨k1, v1⟩ := e
      rcases List.mem_cons.mp h with h1 | h1
      · rw [serialiseFields]
        obtain ⟨hk, hv⟩ := Prod.mk.injEq .. ▸ h1
        exact hk ▸ hv ▸ List.mem_cons_self _ _
      · exact List.mem_cons_of_mem _ (ih h1)

theorem c10_lists_not_recursed_witness :
    (("a", Value.list [Value.date 2024 1 5]) ∈
       ([("a", Value.list [Value.date 2024 1 5])] : List (String × Value))) ∧
    serialise_value (Value.list [Value.date 2024 1 5]) =
      Value.list [Value.date 2024 1 5] ∧
    ("a", Value.list [Value.date 2024 1 5]) ∈
      serialiseFields [("a", Value.list [Value.date 2024 1 5])] := by
  have h := c10_lists_not_recursed [("a", Value.list [Value.date 2024 1 5])] "a"
    [Value.date 2024 1 5] (List.mem_cons_self _ _)
  exact ⟨List.mem_cons_self _ _, h.1, h.2⟩

/-- C8: after a flush attempt for an eligible destination, the buffer is
cleared unconditionally: the residual state and the issued store calls are
the same whatever the store oracle returns — in particular whatever
row-level errors `insert_rows_json` reports, which only produce a log line
(`flush_items` is total, so nothing propagates out of `process_item` or
`close_spider` through it) — and an immediately following flush issues no
insert at all for that destination, so no row is re-submitted. -/
theorem c8_flush_clears_unconditionally (store store2 : Store) (s : Settings)
    (force : Bool) (st : PipelineState) (tid : String) (items : List Item)
    (hnd : (st.itemCache.map Prod.fst).Nodup)
    (hlk : dlookup st.itemCache tid = some items) (hne : items ≠ [])
    (helig : s.itemBatch.getD 1 ≤ items.length ∨ force = true) :
    (flush_items store s force st).1 = (flush_items store2 s force st).1 ∧
    (flush_items store s force st).2.1 = (flush_items store2 s force st).2.1 ∧
    dlookup (flush_items store s force st).1.itemCache tid = some [] ∧
    StoreOp.insertRows tid items ∈ (flush_items store s force st).2.1 ∧
    ∀ force2 store3,
      (flush_items store3 s force2 (flush_items store s force st).1).2.1.filter
        (isInsertFor tid) = [] := by
  have hind := flushCache_store_indep store store2 (s.itemBatch.getD 1) force
    st.itemCache
  have hclear : dlookup (flushCache store (s.itemBatch.getD 1) force
      st.itemCache).1 tid = some [] := by
    rw [flushCache_dlookup, hlk]
    simp [(flushOne_fire store force tid hne helig).1]
  refine ⟨?_, ?_, hclear, ?_, ?_⟩
  · simp [flush_items, hind.1]
  · simp [flush_items, hind.2]
  · exact flushCache_insert_mem hlk hne helig
  · intro force2 store3
    apply filter_isInsertFor_nil
    intro op hop
    obtain ⟨t2, i2, hop1, hop2, hop3, _⟩ := flushCache_ops_mem hop
    subst hop1
    have ht2 : t2 ≠ tid := by
      intro he
      subst he
      have hnd2 : ((flushCache store (s.itemBatch.getD 1) force
          st.itemCache).1.map Prod.fst).Nodup := by
        rw [flushCache_keys]
        exact hnd
      have := dlookup_of_mem_nodup hnd2 hop2
      rw [hclear] at this
      cases this
      exact hop3 rfl
    simp [isInsertFor, ht2]

theorem c8_flush_clears_unconditionally_witness :
    ((([("proj.d.t", [[("n", Value.int 3)]])] :
        List (String × List Item)).map Prod.fst).Nodup ∧
     dlookup ([("proj.d.t", [[("n", Value.int 3)]])] : List (String × List Item))
       "proj.d.t" = some [[("n", Value.int 3)]] ∧
     ([[("n", Value.int 3)]] : List Item) ≠ [] ∧
     (Settings.itemBatch demoSettings).getD 1 ≤
       ([[("n", Value.int 3)]] : List Item).length) ∧
    (dlookup (flush_items demoStore demoSettings false
        { tablesCreated := ["proj.d.t"],
          itemCache := [("proj.d.t", [[("n", Value.int 3)]])] }).1.itemCache
        "proj.d.t" = some [] ∧
     StoreOp.insertRows "proj.d.t" [[("n", Value.int 3)]] ∈
       (flush_items demoStore demoSettings false
         { tablesCreated := ["proj.d.t"],
           itemCache := [("proj.d.t", [[("n", Value.int 3)]])] }).2.1) := by
  have h := c8_flush_clears_unconditionally demoStore conflictStore demoSettings
    false
    { tablesCreated := ["proj.d.t"],
      itemCache := [("proj.d.t", [[("n", Value.int 3)]])] }
    "proj.d.t" [[("n", Value.int 3)]]
    (by simp) rfl (by simp) (Or.inl (by simp [demoSettings]))
  exact ⟨⟨by simp, rfl, by simp, by simp [demoSettings]⟩, h.2.2.1, h.2.2.2.1⟩

/-- C5: a `process_item` call that buffers a record for its resolved
destination leaves the buffered sequence of every other destination
unchanged and issues no insert for any other destination.  (The flush pass
at the end of the call iterates over every buffer, but on a reachable state
— every buffer empty or strictly below the batch size, `belowBatch`, which
every flush re-establishes — only the current destination's buffer can have
reached the threshold.) -/
theorem c5_other_destinations_untouched (store : Store) (p : Pipeline)
    (s : Settings) (sn : String) (now : Value) (st : PipelineState)
    (item : Item) (ret : Item) (st2 : PipelineState) (ops : List StoreOp)
    (logs : List String) (tid : String)
    (hinv : belowBatch (s.itemBatch.getD 1) st)
    (h : process_item store p s sn now st item = .ok (ret, st2, ops, logs))
    (hne : tid ≠ (table_id p s sn now item).1) :
    dlookup st2.itemCache tid = dlookup st.itemCache tid ∧
    ∀ rows, StoreOp.insertRows tid rows ∉ ops := by
  rw [process_item_eq] at h
  cases he : ensure_table_created store st (table_id p s sn now item).1
      (table_id p s sn now item).2 with
  | error e => rw [he] at h; simp at h
  | ok v =>
      obtain ⟨st1, ops1, logs1⟩ := v
      rw [he] at h
      simp only [Except.ok.injEq, Prod.mk.injEq] at h
      obtain ⟨h1, h2, h3, h4⟩ := h
      have hcache1 : st1.itemCache = st.itemCache := (ensure_ok_spec he).1
      have hbc : dlookup (cache_append (cache_init st1.itemCache
          (table_id p s sn now item).1) (table_id p s sn now item).1
          (serialiseFields (project_fields s (table_id p s sn now item).2))) tid =
          dlookup st.itemCache tid := by
        rw [cache_append_lookup_ne _ hne, cache_init_lookup_ne hne, hcache1]
      constructor
      · rw [← h2]
        show dlookup (flushCache store (s.itemBatch.getD 1) false
          (cache_append (cache_init st1.itemCache (table_id p s sn now item).1)
            (table_id p s sn now item).1
            (serialiseFields (project_fields s (table_id p s sn now item).2)))).1
          tid = dlookup st.itemCache tid
        rw [flushCache_dlookup, hbc]
        cases hval : dlookup st.itemCache tid with
        | none => rfl
        | some its =>
            have hmem := dlookup_mem hval
            have hbelow := hinv (tid, its) hmem
            simp [flushOne_skip store tid hbelow]
      · intro rows hmem
        rw [← h3] at hmem
        rcases List.mem_append.mp hmem with hm | hm
        · have := (ensure_ok_spec he).2.2.1 _ hm
          simp [isInsertOp] at this
        · obtain ⟨t2, i2, hop1, hop2, hop3, hop4⟩ := flushCache_ops_mem hm
          obtain ⟨ht2, hi2⟩ := StoreOp.insertRows.injEq .. ▸ hop1
          subst ht2
          subst hi2
          have hmem2 : (tid, rows) ∈ st.itemCache := by
            rw [← hcache1]
            exact cache_init_mem_ne (cache_append_mem_ne hop2 hne) hne
          have hbelow := hinv (tid, rows) hmem2
          rcases hbelow with hb | hb
          · exact hop3 hb
          · rcases hop4 with hb2 | hb2
            · exact absurd hb2 (Nat.not_le.mpr hb)
            · cases hb2

theorem c5_other_destinations_untouched_witness :
    (belowBatch (demoSettings.itemBatch.getD 1) emptyState ∧
     process_item demoStore demoPipeline demoSettings "sp" Value.none emptyState
         [("BIGQUERY_DATASET", Value.str "d"), ("BIGQUERY_TABLE", Value.str "t"),
          ("n", Value.int 3)] =
       .ok ([("n", Value.int 3)],
            { tablesCreated := ["proj.d.t"], itemCache := [("proj.d.t", [])] },
            [StoreOp.getTable "proj.d.t",
             StoreOp.insertRows "proj.d.t" [[("n", Value.int 3)]]], []) ∧
     "other" ≠ (table_id demoPipeline demoSettings "sp" Value.none
       [("BIGQUERY_DATASET", Value.str "d"), ("BIGQUERY_TABLE", Value.str "t"),
        ("n", Value.int 3)]).1) ∧
    (dlookup ([("proj.d.t", [])] : List (String × List Item)) "other" =
       dlookup emptyState.itemCache "other" ∧
     ∀ rows, StoreOp.insertRows "other" rows ∉
       [StoreOp.getTable "proj.d.t",
        StoreOp.insertRows "proj.d.t" [[("n", Value.int 3)]]]) := by
  have h := c5_other_destinations_untouched demoStore demoPipeline demoSettings
    "sp" Value.none emptyState
    [("BIGQUERY_DATASET", Value.str "d"), ("BIGQUERY_TABLE", Value.str "t"),
     ("n", Value.int 3)]
    [("n", Value.int 3)]
    { tablesCreated := ["proj.d.t"], itemCache := [("proj.d.t", [])] }
    [StoreOp.getTable "proj.d.t",
     StoreOp.insertRows "proj.d.t" [[("n", Value.int 3)]]] [] "other"
    (by intro e he; cases he) rfl (by decide)
  exact ⟨⟨(by intro e he; cases he), rfl, (by decide)⟩, h.1, h.2⟩

/-- C3 (the claim fails on the code): after `close_spider`, a further
`process_item` call does not fail — there is no closed flag and no
`PipelineClosed` error anywhere in the pipeline — and it does perform store
I/O: here it checks the table and inserts the row. -/
theorem c3_counterexample :
    process_item demoStore demoPipeline demoSettings "sp" Value.none
        (close_spider demoStore demoSettings emptyState).1
        [("n", Value.int 3)] =
      .ok ([("n", Value.int 3)],
           { tablesCreated := ["proj.d.t"], itemCache := [("proj.d.t", [])] },
           [StoreOp.getTable "proj.d.t",
            StoreOp.insertRows "proj.d.t" [[("n", Value.int 3)]]], []) := rfl

/-- C3 amended: `close_spider` only force-flushes and records no closed
state; a later `process_item` call is served as a normal ingestion — when
the destination's table exists it succeeds, and at the default batch
threshold it performs store I/O, bulk-inserting the freshly buffered row. -/
theorem c3_ingest_after_shutdown_proceeds (store : Store) (p : Pipeline)
    (s : Settings) (sn : String) (now : Value) (st : PipelineState)
    (item : Item) (hbatch : s.itemBatch = Option.none)
    (hex : store.tableExists (table_id p s sn now item).1 = true) :
    ∃ ret st2 ops logs,
      process_item store p s sn now (close_spider store s st).1 item =
        .ok (ret, st2, ops, logs) ∧
      StoreOp.insertRows (table_id p s sn now item).1 [ret] ∈ ops := by
  have hempty : ∀ e ∈ ((close_spider store s st).1).itemCache, e.2 = [] :=
    flushCache_force_empty store (s.itemBatch.getD 1) st.itemCache
  obtain ⟨stE, opsE, logsE, he, hcache⟩ :
      ∃ stE opsE logsE,
        ensure_table_created store (close_spider store s st).1
          (table_id p s sn now item).1 (table_id p s sn now item).2 =
          .ok (stE, opsE, logsE) ∧
        stE.itemCache = ((close_spider store s st).1).itemCache := by
    by_cases hmem : (table_id p s sn now item).1 ∈
        ((close_spider store s st).1).tablesCreated
    · exact ⟨_, _, _, ensure_registered _ hmem, rfl⟩
    · exact ⟨{ (close_spider store s st).1 with
          tablesCreated := (table_id p s sn now item).1 ::
            ((close_spider store s st).1).tablesCreated },
        [.getTable (table_id p s sn now item).1], [],
        by rw [ensure_table_created, if_neg hmem, if_pos hex], rfl⟩
  rw [process_item_eq, he]
  refine ⟨_, _, _, _, rfl, ?_⟩
  have hlook : dlookup (cache_append (cache_init stE.itemCache
      (table_id p s sn now item).1) (table_id p s sn now item).1
      (serialiseFields (project_fields s (table_id p s sn now item).2)))
      (table_id p s sn now item).1 =
      some [serialiseFields (project_fields s (table_id p s sn now item).2)] := by
    rw [hcache]
    cases hD : dlookup ((close_spider store s st).1).itemCache
        (table_id p s sn now item).1 with
    | none =>
        rw [cache_init_of_none hD, cache_append_last _ _ hD,
            dlookup_append_right _ hD]
        simp [dlookup]
    | some its =>
        have hits : its = [] := hempty _ (dlookup_mem hD)
        subst hits
        rw [cache_init_of_some (by simp [hD])]
        exact cache_append_lookup_eq _ hD
  have hins := @flushCache_insert_mem store (s.itemBatch.getD 1) false _ _ _
    hlook (by simp) (Or.inl (by simp [hbatch]))
  exact List.mem_append.mpr (Or.inr hins)

theorem c3_ingest_after_shutdown_proceeds_witness :
    (Settings.itemBatch demoSettings = Option.none ∧
     demoStore.tableExists (table_id demoPipeline demoSettings "sp" Value.none
       [("n", Value.int 3)]).1 = true) ∧
    (∃ ret st2 ops logs,
      process_item demoStore demoPipeline demoSettings "sp" Value.none
          (close_spider demoStore demoSettings emptyState).1
          [("n", Value.int 3)] =
        .ok (ret, st2, ops, logs) ∧
      StoreOp.insertRows (table_id demoPipeline demoSettings "sp" Value.none
        [("n", Value.int 3)]).1 [ret] ∈ ops) :=
  ⟨⟨rfl, rfl⟩,
   c3_ingest_after_shutdown_proceeds demoStore demoPipeline demoSettings "sp"
     Value.none emptyState [("n", Value.int 3)] rfl rfl⟩

/-- C6: with `BIGQUERY_ITEM_BATCH = 2` and a fresh destination (empty
buffer), on a reachable state: the first `process_item` call issues no
bulk-insert and leaves exactly the one stored record buffered; the second
call to the same destination issues exactly one bulk-insert carrying both
stored records in order, after which the destination's buffer is empty. -/
theorem c6_batch_threshold_two (store : Store) (p : Pipeline) (s : Settings)
    (sn : String) (now : Value) (st : PipelineState) (item1 item2 : Item)
    (hb : s.itemBatch = some 2) (hinv : belowBatch 2 st)
    (hfresh : dlookup st.itemCache (table_id p s sn now item1).1 = Option.none)
    (hexc : store.createExc (table_id p s sn now item1).1 = Option.none)
    (hsame : (table_id p s sn now item2).1 = (table_id p s sn now item1).1) :
    ∃ r1 st1 ops1 logs1,
      process_item store p s sn now st item1 = .ok (r1, st1, ops1, logs1) ∧
      ops1.filter isInsertOp = [] ∧
      dlookup st1.itemCache (table_id p s sn now item1).1 = some [r1] ∧
      ∃ r2 st2 ops2 logs2,
        process_item store p s sn now st1 item2 = .ok (r2, st2, ops2, logs2) ∧
        ops2.filter isInsertOp =
          [StoreOp.insertRows (table_id p s sn now item1).1 [r1, r2]] ∧
        dlookup st2.itemCache (table_id p s sn now item1).1 = some [] := by
  have hbv : s.itemBatch.getD 1 = 2 := by rw [hb]; rfl
  set D := (table_id p s sn now item1).1 with hD
  set q1 := (table_id p s sn now item1).2 with hq1
  set r1 := serialiseFields (project_fields s q1) with hr1
  obtain ⟨stE, opsE, logsE, he1⟩ := ensure_ok_exists st q1 hexc
  have hspec1 := ensure_ok_spec he1
  have hbc1 : cache_append (cache_init stE.itemCache D) D r1 =
      st.itemCache ++ [(D, [r1])] := by
    rw [hspec1.1, cache_init_of_none hfresh, cache_append_last _ _ hfresh]
    rfl
  have hflush1 : flushCache store (s.itemBatch.getD 1) false
      (st.itemCache ++ [(D, [r1])]) = (st.itemCache ++ [(D, [r1])], [], []) := by
    apply flushCache_skip
    intro e he
    rcases List.mem_append.mp he with h | h
    · rw [hbv]
      exact hinv e h
    · simp only [List.mem_singleton] at h
      subst h
      rw [hbv]
      right
      simp
  set FL1 := flush_items store s false (buffered_state stE D r1) with hFL1
  have hstate1 : FL1.1.itemCache = st.itemCache ++ [(D, [r1])] := by
    show (flushCache store (s.itemBatch.getD 1) false
      (cache_append (cache_init stE.itemCache D) D r1)).1 =
      st.itemCache ++ [(D, [r1])]
    rw [hbc1, hflush1]
  have hops1 : FL1.2.1 = [] := by
    show (flushCache store (s.itemBatch.getD 1) false
      (cache_append (cache_init stE.itemCache D) D r1)).2.1 = []
    rw [hbc1, hflush1]
  refine ⟨r1, FL1.1, opsE ++ FL1.2.1, logsE ++ FL1.2.2, ?_, ?_, ?_, ?_⟩
  · rw [process_item_eq, ← hD, ← hq1, he1]
  · rw [hops1]
    simp only [List.append_nil]
    exact filter_isInsertOp_nil hspec1.2.2.1
  · rw [hstate1, dlookup_append_right _ hfresh]
    simp [dlookup]
  · -- second call
    set D2 := (table_id p s sn now item2).1 with hD2
    set q2 := (table_id p s sn now item2).2 with hq2
    set r2 := serialiseFields (project_fields s q2) with hr2
    have hreg : D ∈ FL1.1.tablesCreated := by
      show D ∈ stE.tablesCreated
      exact hspec1.2.1
    have he2 : ensure_table_created store FL1.1 D2 q2 = .ok (FL1.1, [], []) := by
      rw [hsame]
      exact ensure_registered _ hreg
    have hbc2 : cache_append (cache_init FL1.1.itemCache D2) D2 r2 =
        st.itemCache ++ [(D, [r1, r2])] := by
      have hlkD : dlookup FL1.1.itemCache D = some [r1] := by
        rw [hstate1, dlookup_append_right _ hfresh]
        simp [dlookup]
      rw [hsame, cache_init_of_some (by simp [hlkD]), hstate1,
          cache_append_last _ _ hfresh]
      rfl
    have hfireB := flushOne_fire store false D
      (show ([r1, r2] : List Item) ≠ [] by simp)
      (Or.inl (by rw [hbv]; simp) :
        s.itemBatch.getD 1 ≤ ([r1, r2] : List Item).length ∨ false = true)
    have hB1 : (flushCache store (s.itemBatch.getD 1) false [(D, [r1, r2])]).1 =
        [(D, [])] := by
      simp [flushCache, hfireB.1]
    have hB2 : (flushCache store (s.itemBatch.getD 1) false [(D, [r1, r2])]).2.1 =
        [StoreOp.insertRows D [r1, r2]] := by
      simp [flushCache, hfireB.2]
    have hA : flushCache store (s.itemBatch.getD 1) false st.itemCache =
        (st.itemCache, [], []) := by
      apply flushCache_skip
      intro e he
      rw [hbv]
      exact hinv e he
    set FL2 := flush_items store s false (buffered_state FL1.1 D2 r2) with hFL2
    have hstate2 : FL2.1.itemCache = st.itemCache ++ [(D, [])] := by
      show (flushCache store (s.itemBatch.getD 1) false
        (cache_append (cache_init FL1.1.itemCache D2) D2 r2)).1 =
        st.itemCache ++ [(D, [])]
      rw [hbc2, flushCache_append, hA, hB1]
    have hops2 : FL2.2.1 = [StoreOp.insertRows D [r1, r2]] := by
      show (flushCache store (s.itemBatch.getD 1) false
        (cache_append (cache_init FL1.1.itemCache D2) D2 r2)).2.1 =
        [StoreOp.insertRows D [r1, r2]]
      rw [hbc2, flushCache_append, hA, hB2]
      simp
    refine ⟨r2, FL2.1, [] ++ FL2.2.1, [] ++ FL2.2.2, ?_, ?_, ?_⟩
    · rw [process_item_eq, ← hD2, ← hq2, he2]
    · rw [hops2]
      simp [isInsertOp]
    · rw [hstate2, dlookup_append_right _ hfresh]
      simp [dlookup]

/-- Settings with the batch threshold at 2, for the C6 witness. -/
def batchSettings : Settings :=
  { bigqueryDataset := some "d", bigqueryTable := some "t", itemBatch := some 2 }

theorem c6_batch_threshold_two_witness :
    (batchSettings.itemBatch = some 2 ∧
     belowBatch 2 emptyState ∧
     dlookup emptyState.itemCache
       (table_id demoPipeline batchSettings "sp" Value.none
         [("n", Value.int 1)]).1 = Option.none ∧
     demoStore.createExc
       (table_id demoPipeline batchSettings "sp" Value.none
         [("n", Value.int 1)]).1 = Option.none ∧
     (table_id demoPipeline batchSettings "sp" Value.none
        [("n", Value.int 2)]).1 =
       (table_id demoPipeline batchSettings "sp" Value.none
         [("n", Value.int 1)]).1) ∧
    (∃ r1 st1 ops1 logs1, process_item demoStore demoPipeline batchSettings "sp"
        Value.none emptyState [("n", Value.int 1)] = .ok (r1, st1, ops1, logs1) ∧
      ops1.filter isInsertOp = [] ∧
      dlookup st1.itemCache
        (table_id demoPipeline batchSettings "sp" Value.none
          [("n", Value.int 1)]).1 = some [r1] ∧
      ∃ r2 st2 ops2 logs2, process_item demoStore demoPipeline batchSettings "sp"
          Value.none st1 [("n", Value.int 2)] = .ok (r2, st2, ops2, logs2) ∧
        ops2.filter isInsertOp =
          [StoreOp.insertRows
            (table_id demoPipeline batchSettings "sp" Value.none
              [("n", Value.int 1)]).1 [r1, r2]] ∧
        dlookup st2.itemCache
          (table_id demoPipeline batchSettings "sp" Value.none
            [("n", Value.int 1)]).1 = some []) :=
  ⟨⟨rfl, fun e he => absurd he (List.not_mem_nil e), rfl, rfl, rfl⟩,
   c6_batch_threshold_two demoStore demoPipeline batchSettings "sp" Value.none
     emptyState [("n", Value.int 1)] [("n", Value.int 2)] rfl
     (fun e he => absurd he (List.not_mem_nil e)) rfl rfl rfl⟩

/-- C7: in the record returned (and buffered for the store) by a successful
`process_item` call, neither routing key appears, while every non-routing
key of the incoming record is retained — provided the allow-list, when
configured and non-empty, lists it (the Python-falsy empty list disables the
projection). -/
theorem c7_routing_fields_stripped (store : Store) (p : Pipeline)
    (s : Settings) (sn : String) (now : Value) (st : PipelineState)
    (item ret : Item) (st2 : PipelineState) (ops : List StoreOp)
    (logs : List String)
    (h : process_item store p s sn now st item = .ok (ret, st2, ops, logs)) :
    bigquery_dataset_key ∉ ret.map Prod.fst ∧
    bigquery_table_key ∉ ret.map Prod.fst ∧
    ∀ k ∈ item.map Prod.fst, k ≠ bigquery_dataset_key →
      k ≠ bigquery_table_key →
      (∀ fs, s.fieldsToSave = some fs → fs ≠ [] → k ∈ fs) →
      k ∈ ret.map Prod.fst := by
  rw [process_item_eq] at h
  cases he : ensure_table_created store st (table_id p s sn now item).1
      (table_id p s sn now item).2 with
  | error e =>
      rw [he] at h
      simp at h
  | ok v =>
      obtain ⟨st1, ops1, logs1⟩ := v
      rw [he] at h
      simp only [Except.ok.injEq, Prod.mk.injEq] at h
      have hret : ret =
          serialiseFields (project_fields s (table_id p s sn now item).2) :=
        h.1.symm
      subst hret
      rw [serialiseFields_keys]
      have htk := table_id_keys p s sn now item
      refine ⟨fun hm => htk.1.1 (project_keys_sub hm),
              fun hm => htk.1.2 (project_keys_sub hm), ?_⟩
      intro k hk h1 h2 h3
      exact project_keys_mem (htk.2 k hk h1 h2) h3

theorem c7_routing_fields_stripped_witness :
    (process_item demoStore demoPipeline demoSettings "sp" Value.none emptyState
       [("BIGQUERY_DATASET", Value.str "d2"), ("BIGQUERY_TABLE", Value.str "t2"),
        ("x", Value.int 5)] =
      .ok ([("x", Value.int 5)],
           { tablesCreated := ["proj.d2.t2"], itemCache := [("proj.d2.t2", [])] },
           [StoreOp.getTable "proj.d2.t2",
            StoreOp.insertRows "proj.d2.t2" [[("x", Value.int 5)]]], [])) ∧
    (bigquery_dataset_key ∉
       ([("x", Value.int 5)] : Item).map Prod.fst ∧
     bigquery_table_key ∉ ([("x", Value.int 5)] : Item).map Prod.fst ∧
     ∀ k ∈ ([("BIGQUERY_DATASET", Value.str "d2"),
             ("BIGQUERY_TABLE", Value.str "t2"),
             ("x", Value.int 5)] : Item).map Prod.fst,
       k ≠ bigquery_dataset_key → k ≠ bigquery_table_key →
       (∀ fs, demoSettings.fieldsToSave = some fs → fs ≠ [] → k ∈ fs) →
       k ∈ ([("x", Value.int 5)] : Item).map Prod.fst) :=
  ⟨rfl,
   c7_routing_fields_stripped demoStore demoPipeline demoSettings "sp"
     Value.none emptyState
     [("BIGQUERY_DATASET", Value.str "d2"), ("BIGQUERY_TABLE", Value.str "t2"),
      ("x", Value.int 5)]
     [("x", Value.int 5)]
     { tablesCreated := ["proj.d2.t2"], itemCache := [("proj.d2.t2", [])] }
     [StoreOp.getTable "proj.d2.t2",
      StoreOp.insertRows "proj.d2.t2" [[("x", Value.int 5)]]] [] rfl⟩

end ScrapyBigQuery
